import Mathlib

/-!
# Verification of the KMA drive-time-matrix engine (`src/app.py`)

Shallow embedding of the ingestion pipeline, the SQLite-backed matrix store,
the query handlers and the access gate of `app.py`.  Python floats are
modelled as rationals (`ℚ`), Python's banker's rounding as `pyRound`, the
SQLite table `dtm` with primary key `(pc4_from, pc4_to)` and
`INSERT OR REPLACE` as a key-unique list of edges with `upsert`, and
`ORDER BY pc4_to` (binary collation) as insertion sort under a
lexicographic comparison of the code strings.  Divisions are written with
`Rat.divInt` over numerator/denominator so that every definition evaluates
inside the kernel; bridging lemmas relate them to ordinary `ℚ` division.
-/

namespace KMA

/-- Python `str.strip()` with no argument: remove leading and trailing
whitespace characters. -/
def pyStrip (s : String) : String :=
  String.mk
    (((s.data.dropWhile Char.isWhitespace).reverse.dropWhile
        Char.isWhitespace).reverse)

/-- Python `str.zfill(w)`: left-pad with `'0'` up to width `w`; a leading
sign character stays in front of the inserted zeros. -/
def zfill (w : Nat) (s : String) : String :=
  if w ≤ s.length then s
  else
    match s.data with
    | c :: rest =>
        if c = '+' || c = '-' then
          String.mk (c :: List.replicate (w - s.length) '0' ++ rest)
        else
          String.mk (List.replicate (w - s.length) '0' ++ s.data)
    | [] => String.mk (List.replicate w '0')

/-- Division of a rational by a natural number, written on the numerator and
denominator (equal to `q / n`, see `ratDivNat_eq`). -/
def ratDivNat (q : ℚ) (n : ℕ) : ℚ := Rat.divInt q.num (q.den * n)

/-- Python 3 `round(x)` on a real value: round half to even, returning an
integer (`app.py` computes `int(round(duration_s / 60.0))` and
`int(round(distance_m / 100.0))`).  `f` is `⌊q⌋` and `rem / q.den` the
fractional part. -/
def pyRound (q : ℚ) : ℤ :=
  let f : ℤ := Int.fdiv q.num q.den
  let rem : ℤ := q.num - f * q.den
  if 2 * rem < (q.den : ℤ) then f
  else if (q.den : ℤ) < 2 * rem then f + 1
  else if f % 2 = 0 then f else f + 1

/-- Python 3 `round(x, 1)`: round to one decimal digit, half to even. -/
def pyRound1 (q : ℚ) : ℚ :=
  Rat.divInt (pyRound (Rat.divInt (q.num * 10) q.den)) 10

/-- One row of the SQLite table `dtm` from `build_sqlite_from_csv`:
`(pc4_from TEXT, pc4_to TEXT, time_min INTEGER, distance_dm INTEGER)`. -/
structure Edge where
  pc4_from : String
  pc4_to : String
  time_min : ℤ
  distance_dm : ℤ
deriving DecidableEq, Repr

/-- The table `dtm`, `PRIMARY KEY (pc4_from, pc4_to)`: a list of edges in
which the key `(pc4_from, pc4_to)` is unique (maintained by `upsert`). -/
abbrev Store := List Edge

/-- Models `INSERT OR REPLACE INTO dtm VALUES (?,?,?,?)`: the new row replaces any
row with the same `(pc4_from, pc4_to)` key. -/
def upsert (st : Store) (e : Edge) : Store :=
  e :: st.filter (fun x => !(x.pc4_from == e.pc4_from && x.pc4_to == e.pc4_to))

/-- One raw CSV record after `csv.DictReader` and successful float parsing:
fields `pc4_from`, `pc4_to`, `duration_s`, `distance_m` (an "accepted"
record of the ingestion loop; malformed rows are skipped before this
point and never reach the store). -/
structure RawRecord where
  pc4_from : String
  pc4_to : String
  duration_s : ℚ
  distance_m : ℚ

/-- The normalization `row["pc4_from"].strip().zfill(4)` of
`build_sqlite_from_csv`. -/
def normCode (s : String) : String := zfill 4 (pyStrip s)

/-- The quantization `int(round(duration_s / 60.0))` of
`build_sqlite_from_csv`. -/
def quantTime (duration_s : ℚ) : ℤ := pyRound (ratDivNat duration_s 60)

/-- The quantization `int(round(distance_m / 100.0))` of
`build_sqlite_from_csv`
(0.1 km resolution). -/
def quantDist (distance_m : ℚ) : ℤ := pyRound (ratDivNat distance_m 100)

/-- The loop body of `build_sqlite_from_csv` for one accepted record:
normalize both codes, quantize, and insert the forward edge `(A,B)`
followed by the synthesized reverse edge `(B,A)`. -/
def ingestRecord (st : Store) (r : RawRecord) : Store :=
  let A := normCode r.pc4_from
  let B := normCode r.pc4_to
  let t := quantTime r.duration_s
  let d := quantDist r.distance_m
  upsert (upsert st ⟨A, B, t, d⟩) ⟨B, A, t, d⟩

/-- The builder `build_sqlite_from_csv`: stream all accepted records, in file order,
through the insert-or-replace loop into an initially empty table. -/
def build_sqlite_from_csv (rs : List RawRecord) : Store :=
  rs.foldl ingestRecord []

/-- The point lookup
`SELECT time_min, distance_dm FROM dtm WHERE pc4_from = ? AND pc4_to = ?`
(at most one row, by the primary key). -/
def lookupPair (st : Store) (o d : String) : Option Edge :=
  st.find? (fun e => e.pc4_from == o && e.pc4_to == d)

/-- Lexicographic comparison of character lists (SQLite's binary collation
used by `ORDER BY pc4_to`). -/
def lexLe : List Char → List Char → Bool
  | [], _ => true
  | _ :: _, [] => false
  | a :: as, b :: bs =>
      if a < b then true
      else if b < a then false
      else lexLe as bs

/-- String comparison backing `ORDER BY` on a `TEXT` column. -/
def strLe (s t : String) : Bool := lexLe s.data t.data

/-- Ordering of result rows used by `ORDER BY pc4_to`. -/
def edgeLe (a b : Edge) : Prop := strLe a.pc4_to b.pc4_to = true

instance : DecidableRel edgeLe := fun a b => by unfold edgeLe; infer_instance

/-- Row ordering used by `ORDER BY pc4_to`. -/
def sortRow (l : List Edge) : List Edge := List.insertionSort edgeLe l

/-- The row lookup `SELECT pc4_to, time_min, distance_dm FROM dtm WHERE
pc4_from = ? ORDER BY pc4_to`. -/
def lookupRow (st : Store) (o : String) : List Edge :=
  sortRow (st.filter (fun e => e.pc4_from == o))

/-- The filtered row lookup `SELECT pc4_to, time_min, distance_dm FROM dtm
WHERE pc4_from = ? AND time_min <= ? ORDER BY pc4_to`. -/
def lookupRowFiltered (st : Store) (o : String) (m : ℤ) : List Edge :=
  sortRow (st.filter (fun e => e.pc4_from == o && decide (e.time_min ≤ m)))

/-- The origins listing `SELECT DISTINCT pc4_from AS o FROM dtm ORDER BY o`. -/
def listOrigins (st : Store) : List String :=
  List.insertionSort (fun a b : String => strLe a b = true)
    ((st.map Edge.pc4_from).dedup)

/-- An inbound request as the handlers observe it: `authorization` is the
`Authorization` header (`""` when absent, mirroring
`request.headers.get("Authorization", "")`); the remaining fields are query
parameters, `none` when absent. -/
structure Request where
  authorization : String
  t : Option String
  key : Option String
  origin : Option String
  dest : Option String
  max_min : Option ℤ

/-- An absent query parameter behaves as the empty string, mirroring
`request.args.get(name) or ""` and `request.args.get(name, "")`. -/
def argD (a : Option String) : String := a.getD ""

/-- Python `str.lower()`. -/
def pyLower (s : String) : String := String.mk (s.data.map Char.toLower)

/-- The credential extractor `get_api_key` of `app.py`: bearer token from the `Authorization`
header first, then the `t` query parameter, then the legacy `key` query
parameter.  When `auth.lower().startswith("bearer ")` holds, the first
space of the header sits at index 6, so `auth.split(" ", 1)[1]` is the
suffix from index 7. -/
def get_api_key (req : Request) : String :=
  if "bearer ".data.isPrefixOf (pyLower req.authorization).data then
    pyStrip (String.mk (req.authorization.data.drop 7))
  else
    let token := pyStrip (argD req.t)
    if token ≠ "" then token
    else pyStrip (argD req.key)

/-- The module-level dict `_rl_window = {}` of `app.py`:
`{key: (minute, count)}`. -/
abbrev RLState := String → Option (ℕ × ℕ)

/-- The rate window before any request has been seen. -/
def rlEmpty : RLState := fun _ => none

/-- The limiter `rate_limit_ok` of `app.py`, with the budget `N`
(`RATE_LIMIT_PER_MIN`) and the current epoch minute
(`int(time.time() // 60)`) passed explicitly; returns the admission
verdict together with the updated `_rl_window`. -/
def rate_limit_ok (N : ℤ) (st : RLState) (key : String) (now_min : ℕ) :
    Bool × RLState :=
  if N ≤ 0 then (true, st)
  else
    let wc0 := (st key).getD (now_min, 0)
    let wc := if wc0.1 ≠ now_min then (now_min, 0) else wc0
    let cnt := wc.2 + 1
    (decide ((cnt : ℤ) ≤ N),
      fun k => if k = key then some (wc.1, cnt) else st k)

/-- Outcome of the `require_api_key` decorator: one of the four rejection
responses (503, 401, 403, 429) or admission with the resolved key. -/
inductive GateResult where
  | serviceUnavailable
  | unauthorized
  | forbidden
  | tooManyRequests
  | allowed (key : String)
deriving DecidableEq, Repr

/-- The decorator `require_api_key` of `app.py`: empty configured key set → 503; no
extractable credential → 401; credential not in the valid set → 403;
otherwise the rate limiter decides (429 or pass), updating `_rl_window`
either way. -/
def require_api_key (validKeys : List String) (N : ℤ) (now_min : ℕ)
    (st : RLState) (req : Request) : GateResult × RLState :=
  if validKeys = [] then (.serviceUnavailable, st)
  else
    let key := get_api_key req
    if key = "" then (.unauthorized, st)
    else if key ∈ validKeys then
      let r := rate_limit_ok N st key now_min
      (if r.1 then .allowed key else .tooManyRequests, r.2)
    else (.forbidden, st)

/-- One element of the legacy `/dtm` `results` list:
`{dest_pc4, time_min, distance_km}` with
`distance_km = int(round(distance_dm / 10.0))`. -/
structure RowItem where
  dest_pc4 : String
  time_min : ℤ
  distance_km : ℤ
deriving DecidableEq, Repr

/-- Response of the legacy `/dtm` endpoint: 400 when `origin` is missing,
else `{origin_pc4, count, results}`. -/
inductive LegacyDtmResp where
  | missingParam
  | ok (origin_pc4 : String) (count : ℕ) (results : List RowItem)
deriving DecidableEq, Repr

/-- The row selection shared by both row endpoints: with `max_min` present
the filtered store lookup runs (`WHERE ... AND time_min <= ?`), otherwise
the full row. -/
def rowsOf (st : Store) (o : String) : Option ℤ → List Edge
  | some m => lookupRowFiltered st o m
  | none => lookupRow st o

/-- One element of the legacy `results` list comprehension:
`{"dest_pc4": …, "time_min": int(…), "distance_km": int(round(d / 10.0))}`. -/
def rowItemOf (e : Edge) : RowItem :=
  ⟨e.pc4_to, e.time_min, pyRound (ratDivNat (e.distance_dm : ℚ) 10)⟩

/-- The handler `get_dtm` of `app.py` (legacy `/dtm`): the falsiness check
`if not origin` runs before `strip().zfill(4)`; with `max_min` present the
filtered store lookup is used, otherwise the full row. -/
def get_dtm (st : Store) (req : Request) : LegacyDtmResp :=
  if argD req.origin = "" then .missingParam
  else
    let o := zfill 4 (pyStrip (argD req.origin))
    let res := (rowsOf st o req.max_min).map rowItemOf
    .ok o res.length res

/-- Response of `/api/v1/dtm`: 400 when `origin` is missing, else the
compact parallel-array shape `{origin_pc4, count, dest, t, d}` with `d`
holding the raw 0.1-km integers. -/
inductive V1DtmResp where
  | missingParam
  | ok (origin_pc4 : String) (count : ℕ) (dest : List String)
      (t : List ℤ) (d : List ℤ)
deriving DecidableEq, Repr

/-- The handler `api_v1_dtm` of `app.py`: here the strip happens before the falsiness
check (`origin = request.args.get("origin", "").strip()`). -/
def api_v1_dtm (st : Store) (req : Request) : V1DtmResp :=
  let o₀ := pyStrip (argD req.origin)
  if o₀ = "" then .missingParam
  else
    let o := zfill 4 o₀
    let rows := rowsOf st o req.max_min
    .ok o rows.length (rows.map Edge.pc4_to) (rows.map Edge.time_min)
      (rows.map Edge.distance_dm)

/-- Success payload of `/api/v1/route`:
`{origin_pc4, dest_pc4, time_min, distance_km}` with
`distance_km = round(distance_dm / 10.0, 1)`. -/
structure RouteOk where
  origin_pc4 : String
  dest_pc4 : String
  time_min : ℤ
  distance_km : ℚ
deriving DecidableEq, Repr

/-- Response of `/api/v1/route`. -/
inductive RouteResp where
  | missingParam
  | notFound
  | ok (r : RouteOk)
deriving DecidableEq, Repr

/-- The handler `api_v1_route` of `app.py`.  Mirrors the source faithfully: both
parameters go through `.strip().zfill(4)` *before* the
`if not origin or not dest` falsiness check. -/
def api_v1_route (st : Store) (req : Request) : RouteResp :=
  let o := zfill 4 (pyStrip (argD req.origin))
  let dst := zfill 4 (pyStrip (argD req.dest))
  if o = "" ∨ dst = "" then .missingParam
  else
    match lookupPair st o dst with
    | none => .notFound
    | some e =>
        .ok ⟨o, dst, e.time_min, pyRound1 (ratDivNat (e.distance_dm : ℚ) 10)⟩

/-- The handler `get_origins` of `app.py` (legacy `/origins`). -/
def get_origins (st : Store) : List String := listOrigins st

/-- The five matrix-serving endpoints of `app.py` that the verified claims
touch: the `/api/v1/*` handlers carry the `@require_api_key` decorator, the
legacy `/dtm` and `/origins` handlers do not. -/
inductive Endpoint where
  | v1_dtm
  | v1_route
  | v1_origins
  | legacy_dtm
  | legacy_origins

/-- A response body from any of the five endpoints, tagged by shape; `gate`
carries one of the four decorator rejections. -/
inductive Answer where
  | gate (g : GateResult)
  | v1Dtm (r : V1DtmResp)
  | route (r : RouteResp)
  | origins (os : List String)
  | legacyDtm (r : LegacyDtmResp)
deriving DecidableEq, Repr

/-- Request dispatch as `app.py` wires it: `/api/v1/*` handlers run behind
`require_api_key` (which may consume rate budget), the legacy handlers are
invoked directly with no gate evaluation. -/
def dispatch (ep : Endpoint) (st : Store) (validKeys : List String)
    (N : ℤ) (now_min : ℕ) (rl : RLState) (req : Request) :
    Answer × RLState :=
  match ep with
  | .legacy_dtm => (.legacyDtm (get_dtm st req), rl)
  | .legacy_origins => (.origins (get_origins st), rl)
  | .v1_dtm =>
      let g := require_api_key validKeys N now_min rl req
      match g.1 with
      | .allowed _ => (.v1Dtm (api_v1_dtm st req), g.2)
      | r => (.gate r, g.2)
  | .v1_route =>
      let g := require_api_key validKeys N now_min rl req
      match g.1 with
      | .allowed _ => (.route (api_v1_route st req), g.2)
      | r => (.gate r, g.2)
  | .v1_origins =>
      let g := require_api_key validKeys N now_min rl req
      match g.1 with
      | .allowed _ => (.origins (listOrigins st), g.2)
      | r => (.gate r, g.2)

/-! ## Store lemmas -/

lemma find?_filter_of_imp (p q : Edge → Bool) (l : List Edge)
    (h : ∀ x, p x = true → q x = true) :
    (l.filter q).find? p = l.find? p := by
  induction l with
  | nil => rfl
  | cons a l ih =>
    by_cases hq : q a = true
    · rw [List.filter_cons_of_pos hq]
      by_cases hp : p a = true
      · rw [List.find?_cons_of_pos _ hp, List.find?_cons_of_pos _ hp]
      · rw [List.find?_cons_of_neg _ hp, List.find?_cons_of_neg _ hp, ih]
    · rw [List.filter_cons_of_neg hq, ih,
        List.find?_cons_of_neg _ (fun hp => hq (h a hp))]

lemma lookupPair_upsert_self (st : Store) (e : Edge) :
    lookupPair (upsert st e) e.pc4_from e.pc4_to = some e := by
  simp [lookupPair, upsert, List.find?_cons_of_pos]

lemma lookupPair_upsert_ne (st : Store) (e : Edge) (o d : String)
    (h : ¬(e.pc4_from = o ∧ e.pc4_to = d)) :
    lookupPair (upsert st e) o d = lookupPair st o d := by
  unfold lookupPair upsert
  rw [List.find?_cons_of_neg _ (by simpa using fun h1 h2 => h ⟨h1, h2⟩)]
  apply find?_filter_of_imp
  intro x hx
  simp only [Bool.and_eq_true, beq_iff_eq] at hx
  cases hxy : (x.pc4_from == e.pc4_from && x.pc4_to == e.pc4_to) with
  | false => rfl
  | true =>
    exfalso
    simp only [Bool.and_eq_true, beq_iff_eq] at hxy
    exact h ⟨by rw [← hxy.1]; exact hx.1, by rw [← hxy.2]; exact hx.2⟩

/-- The forward row `batch.append((A, B, time_min, distance_dm))` built for
one accepted record. -/
def fwdEdge (r : RawRecord) : Edge :=
  ⟨normCode r.pc4_from, normCode r.pc4_to, quantTime r.duration_s,
    quantDist r.distance_m⟩

/-- The synthesized reverse row `batch.append((B, A, time_min, distance_dm))`
built for one accepted record. -/
def revEdge (r : RawRecord) : Edge :=
  ⟨normCode r.pc4_to, normCode r.pc4_from, quantTime r.duration_s,
    quantDist r.distance_m⟩

lemma ingestRecord_eq (st : Store) (r : RawRecord) :
    ingestRecord st r = upsert (upsert st (fwdEdge r)) (revEdge r) := rfl

lemma lookupPair_ingest_rev (st : Store) (r : RawRecord) :
    lookupPair (ingestRecord st r) (normCode r.pc4_to) (normCode r.pc4_from) =
      some (revEdge r) :=
  lookupPair_upsert_self _ _

lemma lookupPair_ingest_fwd (st : Store) (r : RawRecord) :
    lookupPair (ingestRecord st r) (normCode r.pc4_from) (normCode r.pc4_to) =
      some (fwdEdge r) := by
  by_cases hAB : normCode r.pc4_from = normCode r.pc4_to
  · have hre : revEdge r = fwdEdge r := by simp [revEdge, fwdEdge, hAB]
    rw [ingestRecord_eq, hre]
    exact lookupPair_upsert_self _ _
  · rw [ingestRecord_eq,
      lookupPair_upsert_ne _ _ _ _ (fun hc => hAB hc.1.symm)]
    exact lookupPair_upsert_self _ _

lemma lookupPair_foldl_ne (l : List RawRecord) (st : Store) (o d : String)
    (h : ∀ r ∈ l,
        ¬(normCode r.pc4_from = o ∧ normCode r.pc4_to = d) ∧
        ¬(normCode r.pc4_to = o ∧ normCode r.pc4_from = d)) :
    lookupPair (l.foldl ingestRecord st) o d = lookupPair st o d := by
  induction l generalizing st with
  | nil => rfl
  | cons r l ih =>
    rw [List.foldl_cons, ih _ (fun x hx => h x (List.mem_cons_of_mem _ hx))]
    have hr := h r (List.mem_cons_self _ _)
    rw [ingestRecord_eq, lookupPair_upsert_ne _ _ _ _ hr.2,
      lookupPair_upsert_ne _ _ _ _ hr.1]

/-- Claim C1 (symmetric completion): for every accepted raw record `r` that
produces the stored forward edge `(A,B,t,d)`, the built store also contains
the reverse edge `(B,A)` with the same `t` and `d`, unless a record
processed after `r` wrote the ordered pair `(B,A)` (either as its own
forward pair or as its synthesized reverse) — last write wins on the
ordered pair key. -/
theorem symmetric_completion (pre post : List RawRecord) (r : RawRecord)
    (h : ∀ rL ∈ post,
        ¬(normCode rL.pc4_from = normCode r.pc4_to ∧
          normCode rL.pc4_to = normCode r.pc4_from) ∧
        ¬(normCode rL.pc4_to = normCode r.pc4_to ∧
          normCode rL.pc4_from = normCode r.pc4_from)) :
    lookupPair (build_sqlite_from_csv (pre ++ r :: post))
        (normCode r.pc4_to) (normCode r.pc4_from) = some (revEdge r) := by
  unfold build_sqlite_from_csv
  rw [List.foldl_append, List.foldl_cons, lookupPair_foldl_ne post _ _ _ h]
  exact lookupPair_ingest_rev _ _

/-- Witness for **C1** at the spec's example record, with no later
records. -/
theorem symmetric_completion_witness :
    lookupPair (build_sqlite_from_csv [⟨"1012", "3011", 900, 12500⟩])
        (normCode "3011") (normCode "1012") =
      some (revEdge ⟨"1012", "3011", 900, 12500⟩) :=
  symmetric_completion [] [] ⟨"1012", "3011", 900, 12500⟩ (by simp)

/-! ## Ordering lemmas for `ORDER BY pc4_to` -/

lemma lexLe_cons_iff {a b : Char} {as bs : List Char} :
    lexLe (a :: as) (b :: bs) = true ↔
      a < b ∨ (a = b ∧ lexLe as bs = true) := by
  rcases lt_trichotomy a b with h | h | h
  · simp [lexLe, h]
  · subst h
    simp [lexLe, lt_irrefl]
  · simp [lexLe, h, lt_asymm h, ne_of_gt h]

lemma lexLe_total (as : List Char) : ∀ bs, lexLe as bs = true ∨ lexLe bs as = true := by
  induction as with
  | nil => intro bs; left; rfl
  | cons a as ih =>
    intro bs
    cases bs with
    | nil => right; rfl
    | cons b bs =>
      rcases lt_trichotomy a b with h | h | h
      · left; rw [lexLe_cons_iff]; exact Or.inl h
      · rcases ih bs with h2 | h2
        · left; rw [lexLe_cons_iff]; exact Or.inr ⟨h, h2⟩
        · right; rw [lexLe_cons_iff]; exact Or.inr ⟨h.symm, h2⟩
      · right; rw [lexLe_cons_iff]; exact Or.inl h

lemma lexLe_trans {as : List Char} : ∀ {bs cs : List Char},
    lexLe as bs = true → lexLe bs cs = true → lexLe as cs = true := by
  induction as with
  | nil => intro bs cs _ _; rfl
  | cons a as ih =>
    intro bs cs h1 h2
    cases bs with
    | nil => simp [lexLe] at h1
    | cons b bs =>
      cases cs with
      | nil => simp [lexLe] at h2
      | cons c cs =>
        rw [lexLe_cons_iff] at h1 h2 ⊢
        rcases h1 with h1 | ⟨rfl, h1⟩
        · rcases h2 with h2 | ⟨rfl, h2⟩
          · exact Or.inl (lt_trans h1 h2)
          · exact Or.inl h1
        · rcases h2 with h2 | ⟨rfl, h2⟩
          · exact Or.inl h2
          · exact Or.inr ⟨rfl, ih h1 h2⟩

lemma edgeLe_total (a b : Edge) : edgeLe a b ∨ edgeLe b a :=
  lexLe_total _ _

lemma edgeLe_trans {a b c : Edge} (h1 : edgeLe a b) (h2 : edgeLe b c) :
    edgeLe a c :=
  lexLe_trans h1 h2

instance : IsTotal Edge edgeLe := ⟨edgeLe_total⟩

instance : IsTrans Edge edgeLe := ⟨fun _ _ _ => edgeLe_trans⟩

lemma orderedInsert_eq_cons {a : Edge} {l : List Edge}
    (h : ∀ x ∈ l, edgeLe a x) :
    List.orderedInsert edgeLe a l = a :: l := by
  cases l with
  | nil => rfl
  | cons b m =>
    rw [List.orderedInsert, if_pos (h b (List.mem_cons_self _ _))]

lemma filter_orderedInsert (p : Edge → Bool) (a : Edge) (l : List Edge)
    (hl : l.Sorted edgeLe) :
    (List.orderedInsert edgeLe a l).filter p =
      if p a then List.orderedInsert edgeLe a (l.filter p) else l.filter p := by
  induction l with
  | nil =>
    cases hpa : p a with
    | true => simp [List.orderedInsert, hpa]
    | false => simp [List.orderedInsert, hpa]
  | cons b m ih =>
    rw [List.sorted_cons] at hl
    obtain ⟨hb, hm⟩ := hl
    by_cases hab : edgeLe a b
    · rw [List.orderedInsert, if_pos hab]
      cases hpa : p a with
      | true =>
        rw [List.filter_cons_of_pos hpa, if_pos rfl, orderedInsert_eq_cons]
        intro x hx
        rcases List.mem_cons.mp (List.mem_of_mem_filter hx) with rfl | hxm
        · exact hab
        · exact edgeLe_trans hab (hb x hxm)
      | false =>
        rw [List.filter_cons_of_neg (by simp [hpa]), if_neg (by simp [hpa])]
    · rw [List.orderedInsert, if_neg hab]
      cases hpb : p b with
      | true =>
        rw [List.filter_cons_of_pos hpb, List.filter_cons_of_pos hpb, ih hm]
        cases hpa : p a with
        | true =>
          rw [if_pos rfl, if_pos rfl, List.orderedInsert, if_neg hab]
        | false =>
          rw [if_neg (by simp), if_neg (by simp)]
      | false =>
        rw [List.filter_cons_of_neg (by simp [hpb]),
          List.filter_cons_of_neg (by simp [hpb]), ih hm]

lemma filter_insertionSort (p : Edge → Bool) (l : List Edge) :
    (List.insertionSort edgeLe l).filter p =
      List.insertionSort edgeLe (l.filter p) := by
  induction l with
  | nil => rfl
  | cons a l ih =>
    rw [List.insertionSort,
      filter_orderedInsert _ _ _ (List.sorted_insertionSort edgeLe l)]
    cases hpa : p a with
    | true =>
      rw [if_pos rfl, List.filter_cons_of_pos hpa, List.insertionSort, ih]
    | false =>
      rw [if_neg (by simp), List.filter_cons_of_neg (by simp [hpa]), ih]

/-- Claim C5 (threshold push-down equivalence): for every origin `o` and
integer threshold `m`, the filtered row lookup returns exactly those edges
of the full row lookup whose `time_min` is at most `m`, in the same order
(ordered by destination code). -/
theorem threshold_pushdown (st : Store) (o : String) (m : ℤ) :
    lookupRowFiltered st o m =
      (lookupRow st o).filter (fun e => decide (e.time_min ≤ m)) := by
  unfold lookupRowFiltered lookupRow sortRow
  rw [filter_insertionSort, List.filter_filter]
  congr 1
  apply List.filter_congr
  intro x _
  exact Bool.and_comm _ _

/-! ## Query-handler lemmas -/

lemma string_mk_ne_empty {l : List Char} (h : l ≠ []) : String.mk l ≠ "" := by
  intro he
  exact h (by simpa using congrArg String.data he)

lemma zfill_four_ne_empty (s : String) : zfill 4 s ≠ "" := by
  rw [zfill]
  by_cases hle : 4 ≤ s.length
  · rw [if_pos hle]
    intro h
    rw [h] at hle
    exact absurd hle (by decide)
  · rw [if_neg hle]
    cases hd : s.data with
    | nil => exact string_mk_ne_empty (by simp)
    | cons c rest =>
      show (if c = '+' || c = '-' then
              String.mk (c :: List.replicate (4 - s.length) '0' ++ rest)
            else
              String.mk (List.replicate (4 - s.length) '0' ++ (c :: rest))) ≠ ""
      split
      · exact string_mk_ne_empty (by simp)
      · exact string_mk_ne_empty (by simp)

lemma get_dtm_ok (st : Store) (req : Request) (o₀ : String)
    (ho : req.origin = some o₀) (hne : o₀ ≠ "") :
    get_dtm st req =
      .ok (zfill 4 (pyStrip o₀))
        ((rowsOf st (zfill 4 (pyStrip o₀)) req.max_min).map rowItemOf).length
        ((rowsOf st (zfill 4 (pyStrip o₀)) req.max_min).map rowItemOf) := by
  have ha : argD req.origin = o₀ := by rw [ho]; rfl
  unfold get_dtm
  rw [ha, if_neg hne]

/-- Claim C2 (code bug): in `api_v1_route`, `zfill(4)` runs before the
falsiness test, and a zero-padded code is never the empty string, so the
`MissingParameter` branch is unreachable; a request with `origin` absent is
answered from the store (here: `NotFound`), never with the claimed 400. -/
theorem route_missing_param_unreachable :
    (api_v1_route [] ⟨"", none, none, none, some "3011", none⟩ =
      RouteResp.notFound) ∧
    ∀ (st : Store) (req : Request),
      api_v1_route st req ≠ RouteResp.missingParam := by
  refine ⟨by decide, ?_⟩
  intro st req
  simp only [api_v1_route]
  split
  · rename_i hcond
    rcases hcond with h | h
    · exact absurd h (zfill_four_ne_empty _)
    · exact absurd h (zfill_four_ne_empty _)
  · split <;> simp

/-- Witness for **C2**: a concrete request with `origin` absent is not
answered with the `MissingParameter` response. -/
theorem route_missing_param_unreachable_witness :
    api_v1_route [⟨"0000", "3011", 7, 40⟩]
        ⟨"", none, none, none, some "3011", none⟩ ≠
      RouteResp.missingParam :=
  route_missing_param_unreachable.2 _ _

/-- Counterexample for **C3**: for a stored edge with `distance_dm = 125`,
the legacy `/dtm` row result carries `distance_km = 12` — the stored
quantized integer rounded to a *whole* kilometre (half-to-even), not the
one-decimal value `125 / 10 = 12.5` the claim requires. -/
theorem legacy_distance_whole_km_cx :
    get_dtm [⟨"1012", "3011", 15, 125⟩]
        ⟨"", none, none, some "1012", none, none⟩ =
      LegacyDtmResp.ok "1012" 1 [⟨"3011", 15, 12⟩] ∧
    (12 : ℚ) ≠ Rat.divInt 125 10 :=
  ⟨by decide, by decide⟩

/-- Claim C3 (amended): every successful legacy full-row or threshold query
returns `{originPc4, count, results[]}` with `count` the length of
`results`, each result holding the destination code, the stored integer
minutes, and the stored 0.1-km integer divided by the resolution factor 10
and then rounded to a whole kilometre (`int(round(d / 10.0))`); the
results come positionally from the full (resp. threshold-filtered) store
row.  (The v1 row endpoint instead returns parallel arrays with the raw
0.1-km integers.) -/
theorem row_query_result_shape (st : Store) (req : Request) (o₀ : String)
    (ho : req.origin = some o₀) (hne : o₀ ≠ "") :
    (req.max_min = none →
      get_dtm st req =
        .ok (zfill 4 (pyStrip o₀))
          ((lookupRow st (zfill 4 (pyStrip o₀))).map rowItemOf).length
          ((lookupRow st (zfill 4 (pyStrip o₀))).map rowItemOf)) ∧
    (∀ mm : ℤ, req.max_min = some mm →
      get_dtm st req =
        .ok (zfill 4 (pyStrip o₀))
          ((lookupRowFiltered st (zfill 4 (pyStrip o₀)) mm).map rowItemOf).length
          ((lookupRowFiltered st (zfill 4 (pyStrip o₀)) mm).map rowItemOf)) ∧
    (∀ e : Edge, rowItemOf e =
      ⟨e.pc4_to, e.time_min, pyRound (ratDivNat (e.distance_dm : ℚ) 10)⟩) := by
  refine ⟨?_, ?_, fun e => rfl⟩
  · intro hmm
    rw [get_dtm_ok st req o₀ ho hne, hmm]
    rfl
  · intro mm hmm
    rw [get_dtm_ok st req o₀ ho hne, hmm]
    rfl

/-- Witness for **C3** (amended) on a one-edge store. -/
theorem row_query_result_shape_witness :
    get_dtm [⟨"1012", "3011", 15, 125⟩]
        ⟨"", none, none, some "1012", none, none⟩ =
      .ok (zfill 4 (pyStrip "1012"))
        ((lookupRow [⟨"1012", "3011", 15, 125⟩]
            (zfill 4 (pyStrip "1012"))).map rowItemOf).length
        ((lookupRow [⟨"1012", "3011", 15, 125⟩]
            (zfill 4 (pyStrip "1012"))).map rowItemOf) :=
  (row_query_result_shape [⟨"1012", "3011", 15, 125⟩]
      ⟨"", none, none, some "1012", none, none⟩ "1012" rfl
      (by decide)).1 rfl

/-- Counterexample for **C4**: on a store with no row for origin `9999`,
both full-row endpoints answer with a *successful empty* result
(`count = 0`), not with `NotFound`. -/
theorem unknown_origin_ok_cx :
    get_dtm [] ⟨"", none, none, some "9999", none, none⟩ =
      LegacyDtmResp.ok "9999" 0 [] ∧
    api_v1_dtm [] ⟨"", none, none, some "9999", none, none⟩ =
      V1DtmResp.ok "9999" 0 [] [] [] :=
  ⟨by decide, by decide⟩

/-- Claim C4 (amended): a full-row query whose zero-padded origin appears
nowhere as a from-code returns the successful empty result
`{originPc4, count: 0, results: []}` — the serving code in `app.py` has no
NotFound branch for row queries (only the superseded backup implementation
answered 404 there). -/
theorem unknown_origin_empty_result (st : Store) (req : Request)
    (o₀ : String) (ho : req.origin = some o₀) (hne : o₀ ≠ "")
    (hu : ∀ e ∈ st, e.pc4_from ≠ zfill 4 (pyStrip o₀)) :
    get_dtm st req = .ok (zfill 4 (pyStrip o₀)) 0 [] := by
  rw [get_dtm_ok st req o₀ ho hne]
  have hrows : rowsOf st (zfill 4 (pyStrip o₀)) req.max_min = [] := by
    cases req.max_min with
    | none =>
      show sortRow (st.filter _) = []
      rw [List.filter_eq_nil_iff.mpr (fun e he => by simp [hu e he])]
      rfl
    | some mm =>
      show sortRow (st.filter _) = []
      rw [List.filter_eq_nil_iff.mpr (fun e he => by simp [hu e he])]
      rfl
  rw [hrows]
  rfl

/-- Witness for **C4** (amended): origin `9999` against a store holding
only a `1012 → 3011` edge. -/
theorem unknown_origin_empty_result_witness :
    get_dtm [⟨"1012", "3011", 15, 125⟩]
        ⟨"", none, none, some "9999", none, none⟩ =
      .ok (zfill 4 (pyStrip "9999")) 0 [] :=
  unknown_origin_empty_result [⟨"1012", "3011", 15, 125⟩]
    ⟨"", none, none, some "9999", none, none⟩ "9999" rfl (by decide)
    (by decide)

/-! ## Rate-limiter lemmas -/

/-- Iterated calls: the `_rl_window` state after `i` successive calls of
`rate_limit_ok` with the same credential in the same epoch minute. -/
def rlCalls (N : ℤ) (key : String) (now_min : ℕ) (st : RLState) :
    ℕ → RLState
  | 0 => st
  | i + 1 => (rate_limit_ok N (rlCalls N key now_min st i) key now_min).2

lemma rlo_none (N : ℤ) (hN : 0 < N) (st : RLState) (k : String) (m : ℕ)
    (h : st k = none) :
    (rate_limit_ok N st k m).1 = decide ((1 : ℤ) ≤ N) ∧
    (rate_limit_ok N st k m).2 k = some (m, 1) := by
  unfold rate_limit_ok
  rw [if_neg (not_le.mpr hN)]
  simp [h]

lemma rlo_same (N : ℤ) (hN : 0 < N) (st : RLState) (k : String) (m c : ℕ)
    (h : st k = some (m, c)) :
    (rate_limit_ok N st k m).1 = decide (((c : ℤ) + 1) ≤ N) ∧
    (rate_limit_ok N st k m).2 k = some (m, c + 1) := by
  unfold rate_limit_ok
  rw [if_neg (not_le.mpr hN)]
  simp [h]

lemma rlo_rollover (N : ℤ) (hN : 0 < N) (st : RLState) (k : String)
    (m w c : ℕ) (h : st k = some (w, c)) (hw : w ≠ m) :
    (rate_limit_ok N st k m).1 = decide ((1 : ℤ) ≤ N) ∧
    (rate_limit_ok N st k m).2 k = some (m, 1) := by
  unfold rate_limit_ok
  rw [if_neg (not_le.mpr hN)]
  simp [h, hw]

lemma rlCalls_window (N : ℤ) (hN : 0 < N) (k : String) (m : ℕ)
    (st : RLState) (h0 : st k = none) :
    ∀ i : ℕ, 1 ≤ i → rlCalls N k m st i k = some (m, i) := by
  intro i hi
  induction i with
  | zero => exact absurd hi (by decide)
  | succ i ih =>
    rw [rlCalls]
    rcases Nat.eq_zero_or_pos i with rfl | hip
    · exact (rlo_none N hN st k m h0).2
    · exact (rlo_same N hN _ k m i (ih hip)).2

/-- Claim C6 (rate limiter boundary): with a configured budget `N > 0` and a
single credential `k` starting fresh, each of the first `N` requests in one
epoch minute is admitted, the `(N+1)`-th in that minute is rejected, and
the first request in a different epoch minute is admitted regardless of the
stored count, resetting the window counter to 1. -/
theorem rate_limiter_boundary (N : ℤ) (hN : 0 < N) (k : String)
    (m mNext : ℕ) (st₀ : RLState) (h₀ : st₀ k = none) :
    (∀ i : ℕ, (i : ℤ) < N →
      (rate_limit_ok N (rlCalls N k m st₀ i) k m).1 = true) ∧
    (rate_limit_ok N (rlCalls N k m st₀ N.toNat) k m).1 = false ∧
    (∀ (st : RLState) (w c : ℕ), st k = some (w, c) → w ≠ mNext →
      (rate_limit_ok N st k mNext).1 = true ∧
      (rate_limit_ok N st k mNext).2 k = some (mNext, 1)) := by
  refine ⟨?_, ?_, ?_⟩
  · intro i hi
    rcases Nat.eq_zero_or_pos i with rfl | hip
    · rw [show rlCalls N k m st₀ 0 = st₀ from rfl,
        (rlo_none N hN st₀ k m h₀).1, decide_eq_true_eq]
      omega
    · rw [(rlo_same N hN _ k m i (rlCalls_window N hN k m st₀ h₀ i hip)).1,
        decide_eq_true_eq]
      omega
  · have hNt : 1 ≤ N.toNat := by omega
    rw [(rlo_same N hN _ k m N.toNat
        (rlCalls_window N hN k m st₀ h₀ N.toNat hNt)).1]
    simp only [decide_eq_false_iff_not, not_le]
    omega
  · intro st w c hst hw
    exact ⟨by
      rw [(rlo_rollover N hN st k mNext w c hst hw).1, decide_eq_true_eq]
      omega,
      (rlo_rollover N hN st k mNext w c hst hw).2⟩

/-- Witness for **C6**: with budget 2 and a fresh credential, the third
request in the same epoch minute is rejected. -/
theorem rate_limiter_boundary_witness :
    (rate_limit_ok 2 (rlCalls 2 "a" 0 rlEmpty (2 : ℤ).toNat) "a" 0).1 =
      false :=
  (rate_limiter_boundary 2 (by decide) "a" 0 1 rlEmpty rfl).2.1

/-- Claim C7 (access gate classification order): an empty configured key set
yields `ServiceUnavailable` before any credential handling; otherwise an
empty extracted credential yields `Unauthorized`; otherwise a credential
outside the valid set yields `Forbidden`; otherwise the rate limiter
decides.  Credential extraction priority: the bearer token of the
`Authorization` header first, then the `t` query parameter, then the legacy
`key` query parameter. -/
theorem access_gate_order (validKeys : List String) (N : ℤ) (now_min : ℕ)
    (st : RLState) (req : Request) :
    (validKeys = [] →
      require_api_key validKeys N now_min st req =
        (.serviceUnavailable, st)) ∧
    (validKeys ≠ [] → get_api_key req = "" →
      require_api_key validKeys N now_min st req = (.unauthorized, st)) ∧
    (validKeys ≠ [] → get_api_key req ≠ "" →
      get_api_key req ∉ validKeys →
      require_api_key validKeys N now_min st req = (.forbidden, st)) ∧
    (validKeys ≠ [] → get_api_key req ≠ "" →
      get_api_key req ∈ validKeys →
      require_api_key validKeys N now_min st req =
        (if (rate_limit_ok N st (get_api_key req) now_min).1 then
            .allowed (get_api_key req)
          else .tooManyRequests,
          (rate_limit_ok N st (get_api_key req) now_min).2)) ∧
    ("bearer ".data.isPrefixOf (pyLower req.authorization).data = true →
      get_api_key req =
        pyStrip (String.mk (req.authorization.data.drop 7))) ∧
    (¬ "bearer ".data.isPrefixOf (pyLower req.authorization).data = true →
      pyStrip (argD req.t) ≠ "" →
      get_api_key req = pyStrip (argD req.t)) ∧
    (¬ "bearer ".data.isPrefixOf (pyLower req.authorization).data = true →
      pyStrip (argD req.t) = "" →
      get_api_key req = pyStrip (argD req.key)) := by
  refine ⟨?_, ?_, ?_, ?_, ?_, ?_, ?_⟩
  · intro h
    simp [require_api_key, h]
  · intro h1 h2
    simp [require_api_key, h1, h2]
  · intro h1 h2 h3
    simp [require_api_key, h1, h2, h3]
  · intro h1 h2 h3
    simp [require_api_key, h1, h2, h3]
  · intro h
    simp [get_api_key, h]
  · intro h1 h2
    simp [get_api_key, h1, h2]
  · intro h1 h2
    simp [get_api_key, h1, h2]

/-- Witness for **C7**: a present but invalid credential (query parameter
`key=bad` against valid set `{good}`) is classified `Forbidden` and leaves
the rate window untouched. -/
theorem access_gate_order_witness :
    require_api_key ["good"] 5 0 rlEmpty
        ⟨"", none, some "bad", none, none, none⟩ =
      (GateResult.forbidden, rlEmpty) :=
  (access_gate_order ["good"] 5 0 rlEmpty
      ⟨"", none, some "bad", none, none, none⟩).2.2.1
    (by decide) (by decide) (by decide)

/-! ## Quantization arithmetic -/

lemma ratDivNat_eq (q : ℚ) (n : ℕ) : ratDivNat q n = q / n := by
  rw [ratDivNat, Rat.divInt_eq_div]
  push_cast
  rw [← div_div, Rat.num_div_den]

lemma pyRound_abs_le (q : ℚ) : |(pyRound q : ℚ) - q| ≤ 1 / 2 := by
  have hd : (0 : ℤ) < (q.den : ℤ) := by exact_mod_cast q.pos
  have hdQ : (0 : ℚ) < (q.den : ℚ) := by exact_mod_cast q.pos
  unfold pyRound
  set f : ℤ := Int.fdiv q.num q.den with hf
  set rem : ℤ := q.num - f * q.den with hrem
  have hrem_emod : rem = q.num % q.den := by
    rw [hrem, hf, Int.fdiv_eq_ediv _ hd.le, Int.emod_def]
    ring
  have h0r : 0 ≤ rem := hrem_emod ▸ Int.emod_nonneg _ (ne_of_gt hd)
  have h1r : rem < (q.den : ℤ) := hrem_emod ▸ Int.emod_lt_of_pos _ hd
  have hq : q * (q.den : ℚ) = (q.num : ℚ) := by
    have hnd := Rat.num_div_den q
    rw [div_eq_iff hdQ.ne'] at hnd
    linarith
  have hqf : q - (f : ℚ) = (rem : ℚ) / (q.den : ℚ) := by
    rw [eq_div_iff hdQ.ne']
    have : ((rem : ℤ) : ℚ) = (q.num : ℚ) - (f : ℚ) * (q.den : ℚ) := by
      rw [hrem]; push_cast; ring
    rw [this]
    linear_combination hq
  have hr0Q : (0 : ℚ) ≤ (rem : ℚ) / (q.den : ℚ) :=
    div_nonneg (by exact_mod_cast h0r) hdQ.le
  have hr1Q : (rem : ℚ) / (q.den : ℚ) < 1 := by
    rw [div_lt_one hdQ]
    exact_mod_cast h1r
  show |(↑(if 2 * rem < (q.den : ℤ) then f
          else if (q.den : ℤ) < 2 * rem then f + 1
          else if f % 2 = 0 then f else f + 1) : ℚ) - q| ≤ 1 / 2
  split
  · rename_i hlt
    have hhalf : (rem : ℚ) / (q.den : ℚ) ≤ 1 / 2 := by
      rw [div_le_div_iff hdQ (by norm_num : (0:ℚ) < 2)]
      have : ((2 * rem : ℤ) : ℚ) < ((q.den : ℤ) : ℚ) := by exact_mod_cast hlt
      push_cast at this ⊢
      linarith
    rw [abs_le]
    constructor <;> linarith
  · split
    · rename_i hle hgt
      have hhalf : 1 / 2 ≤ (rem : ℚ) / (q.den : ℚ) := by
        rw [div_le_div_iff (by norm_num : (0:ℚ) < 2) hdQ]
        have : ((q.den : ℤ) : ℚ) < ((2 * rem : ℤ) : ℚ) := by exact_mod_cast hgt
        push_cast at this ⊢
        linarith
      rw [abs_le]
      push_cast
      constructor <;> linarith
    · rename_i hle hge
      have heq : (rem : ℚ) / (q.den : ℚ) = 1 / 2 := by
        have h2 : 2 * rem = (q.den : ℤ) := by omega
        rw [div_eq_div_iff hdQ.ne' (by norm_num : (2:ℚ) ≠ 0)]
        have : ((2 * rem : ℤ) : ℚ) = ((q.den : ℤ) : ℚ) := by exact_mod_cast h2
        push_cast at this ⊢
        linarith
      split
      · rw [abs_le]
        constructor <;> linarith
      · rw [abs_le]
        push_cast
        constructor <;> linarith

lemma pyRound_intCast (n : ℤ) : pyRound ((n : ℚ)) = n := by
  unfold pyRound
  rw [Rat.num_intCast, Rat.den_intCast]
  norm_num [Int.fdiv_one]

lemma pyRound1_int_tenths (d : ℤ) :
    pyRound1 (ratDivNat (d : ℚ) 10) = ratDivNat (d : ℚ) 10 := by
  have harg : Rat.divInt ((ratDivNat (d : ℚ) 10).num * 10)
      (ratDivNat (d : ℚ) 10).den = (d : ℚ) := by
    rw [Rat.divInt_eq_div]
    push_cast
    rw [mul_comm ((ratDivNat (d : ℚ) 10).num : ℚ) 10, mul_div_assoc,
      Rat.num_div_den, ratDivNat_eq]
    field_simp
  rw [pyRound1, harg, pyRound_intCast, ratDivNat_eq, Rat.divInt_eq_div]
  norm_num

lemma api_v1_route_found (st : Store) (req : Request) (e : Edge)
    (h : lookupPair st (zfill 4 (pyStrip (argD req.origin)))
          (zfill 4 (pyStrip (argD req.dest))) = some e) :
    api_v1_route st req =
      .ok ⟨zfill 4 (pyStrip (argD req.origin)),
        zfill 4 (pyStrip (argD req.dest)), e.time_min,
        pyRound1 (ratDivNat (e.distance_dm : ℚ) 10)⟩ := by
  simp only [api_v1_route]
  rw [if_neg (by rintro (hc | hc) <;> exact zfill_four_ne_empty _ hc), h]

/-- Claim C8 (quantization round-trip bound): for every ingested record, the
`distance_km` answered by the pair query is the stored 0.1-km integer
divided by 10, and it differs from `distance_m / 1000` by at most the
half-step 0.05 km; in particular the record
`(1012, 3011, 900 s, 12500 m)` stores edges `(1012,3011,15,125)` and
`(3011,1012,15,125)`, and the pair query answers `time_min = 15`,
`distance_km = 12.5`. -/
theorem quantization_roundtrip (r : RawRecord) :
    (api_v1_route (build_sqlite_from_csv [r])
        ⟨"", none, none, some r.pc4_from, some r.pc4_to, none⟩ =
      RouteResp.ok ⟨normCode r.pc4_from, normCode r.pc4_to,
        quantTime r.duration_s, (quantDist r.distance_m : ℚ) / 10⟩) ∧
    |(quantDist r.distance_m : ℚ) / 10 - r.distance_m / 1000| ≤ 1 / 20 ∧
    (build_sqlite_from_csv [⟨"1012", "3011", 900, 12500⟩] =
      [⟨"3011", "1012", 15, 125⟩, ⟨"1012", "3011", 15, 125⟩]) ∧
    (api_v1_route (build_sqlite_from_csv [⟨"1012", "3011", 900, 12500⟩])
        ⟨"", none, none, some "1012", some "3011", none⟩ =
      RouteResp.ok ⟨"1012", "3011", 15, Rat.divInt 25 2⟩) := by
  refine ⟨?_, ?_, by decide, by decide⟩
  · have hlp : lookupPair (build_sqlite_from_csv [r])
        (zfill 4 (pyStrip (argD (some r.pc4_from))))
        (zfill 4 (pyStrip (argD (some r.pc4_to)))) = some (fwdEdge r) :=
      lookupPair_ingest_fwd [] r
    have h1 := api_v1_route_found (build_sqlite_from_csv [r])
      ⟨"", none, none, some r.pc4_from, some r.pc4_to, none⟩ (fwdEdge r) hlp
    refine h1.trans ?_
    rw [show ((fwdEdge r).distance_dm : ℚ) = (quantDist r.distance_m : ℚ)
        from rfl,
      pyRound1_int_tenths, ratDivNat_eq]
    norm_num
    exact ⟨rfl, rfl, rfl⟩
  · have hb := pyRound_abs_le (ratDivNat r.distance_m 100)
    rw [ratDivNat_eq] at hb
    have hqd : (quantDist r.distance_m : ℚ) =
        (pyRound (ratDivNat r.distance_m 100) : ℚ) := rfl
    rw [ratDivNat_eq] at hqd
    have hsplit : (quantDist r.distance_m : ℚ) / 10 - r.distance_m / 1000 =
        ((pyRound (r.distance_m / 100) : ℚ) - r.distance_m / 100) / 10 := by
      rw [hqd]
      ring
    rw [hsplit, abs_div]
    rw [show |(10 : ℚ)| = 10 from by norm_num]
    rw [div_le_iff (by norm_num : (0:ℚ) < 10)]
    linarith

/-! ## Interleaving decomposition of the rate limiter -/

/-- The read-and-compute phase of `rate_limit_ok`: the dict read
`_rl_window.get(key, (now_min, 0))`, the window-rollover reset and the
increment `cnt += 1`.  In CPython this runs as separate bytecode from the
store that follows, with no lock held. -/
def rl_read (st : RLState) (key : String) (now_min : ℕ) : ℕ × ℕ :=
  let wc0 := (st key).getD (now_min, 0)
  let wc := if wc0.1 ≠ now_min then (now_min, 0) else wc0
  (wc.1, wc.2 + 1)

/-- The write-back phase `_rl_window[key] = (win, cnt)`. -/
def rl_write (st : RLState) (key : String) (wc : ℕ × ℕ) : RLState :=
  fun k => if k = key then some wc else st k

/-- The returned verdict `cnt <= RATE_LIMIT_PER_MIN`. -/
def rl_verdict (N : ℤ) (wc : ℕ × ℕ) : Bool := decide ((wc.2 : ℤ) ≤ N)

/-- Claim C9 (rate-limit atomicity, code bug): `rate_limit_ok` is exactly the
unsynchronized sequence read-compute (`rl_read`) then store (`rl_write`)
then compare (`rl_verdict`); under the interleaving read₁, read₂, write₁,
write₂ of two requests with the same credential, both verdicts are computed
from the same pre-write state, so with budget 1 and one remaining slot
*both* requests are admitted — while the same two requests run sequentially
would see the second rejected.  Nothing in the function serializes the
read-increment-store sequence. -/
theorem rate_limit_not_atomic :
    (∀ (N : ℤ) (st : RLState) (k : String) (now_min : ℕ), 0 < N →
      rate_limit_ok N st k now_min =
        (rl_verdict N (rl_read st k now_min),
          rl_write st k (rl_read st k now_min))) ∧
    (rl_verdict 1 (rl_read rlEmpty "a" 0) = true) ∧
    ((rate_limit_ok 1 ((rate_limit_ok 1 rlEmpty "a" 0).2) "a" 0).1 =
      false) := by
  refine ⟨?_, by decide, by decide⟩
  intro N st k now_min h
  unfold rate_limit_ok rl_verdict rl_read rl_write
  rw [if_neg (not_le.mpr h)]

/-- Witness for **C9**: the decomposition of `rate_limit_ok` into its
unsynchronized read and write phases, at budget 1. -/
theorem rate_limit_not_atomic_witness :
    rate_limit_ok 1 rlEmpty "a" 0 =
      (rl_verdict 1 (rl_read rlEmpty "a" 0),
        rl_write rlEmpty "a" (rl_read rlEmpty "a" 0)) :=
  rate_limit_not_atomic.1 1 rlEmpty "a" 0 (by decide)

/-- Claim C10: the legacy `/dtm` and `/origins` endpoints are dispatched with
no access-gate evaluation: whatever credential fields the request carries,
the response is never one of the four gate rejections, it does not depend
on the credential fields at all, the rate-window state is returned
unchanged, and matrix data is served. -/
theorem legacy_routes_ungated (ep : Endpoint)
    (hep : ep = .legacy_dtm ∨ ep = .legacy_origins)
    (st : Store) (validKeys : List String) (N : ℤ) (now_min : ℕ)
    (rl : RLState) (req : Request) :
    (dispatch ep st validKeys N now_min rl req).2 = rl ∧
    (∀ g, (dispatch ep st validKeys N now_min rl req).1 ≠ Answer.gate g) ∧
    (∀ req2 : Request, req2.origin = req.origin →
      req2.max_min = req.max_min →
      (dispatch ep st validKeys N now_min rl req2).1 =
        (dispatch ep st validKeys N now_min rl req).1) ∧
    (ep = .legacy_origins →
      (dispatch ep st validKeys N now_min rl req).1 =
        Answer.origins (listOrigins st)) ∧
    (ep = .legacy_dtm → ∀ o₀ : String, req.origin = some o₀ → o₀ ≠ "" →
      (dispatch ep st validKeys N now_min rl req).1 =
        Answer.legacyDtm (LegacyDtmResp.ok (zfill 4 (pyStrip o₀))
          ((rowsOf st (zfill 4 (pyStrip o₀)) req.max_min).map
              rowItemOf).length
          ((rowsOf st (zfill 4 (pyStrip o₀)) req.max_min).map
              rowItemOf))) := by
  rcases hep with rfl | rfl
  · refine ⟨rfl, ?_, ?_, ?_, ?_⟩
    · intro g
      simp [dispatch]
    · intro req2 h1 h2
      show Answer.legacyDtm (get_dtm st req2) =
        Answer.legacyDtm (get_dtm st req)
      have heq : get_dtm st req2 = get_dtm st req := by
        unfold get_dtm
        rw [h1, h2]
      rw [heq]
    · intro h
      cases h
    · intro _ o₀ ho hne
      show Answer.legacyDtm (get_dtm st req) = _
      rw [get_dtm_ok st req o₀ ho hne]
  · refine ⟨rfl, ?_, ?_, ?_, ?_⟩
    · intro g
      simp [dispatch]
    · intro req2 _ _
      rfl
    · intro _
      rfl
    · intro h
      cases h

/-- Witness for **C10**: a legacy `/dtm` request bearing an invalid
credential leaves the rate window untouched. -/
theorem legacy_routes_ungated_witness :
    (dispatch .legacy_dtm [] ["good"] 1 0 rlEmpty
        ⟨"", none, some "bad", some "1012", none, none⟩).2 = rlEmpty :=
  (legacy_routes_ungated .legacy_dtm (Or.inl rfl) [] ["good"] 1 0 rlEmpty
      ⟨"", none, some "bad", some "1012", none, none⟩).1

end KMA
